import Mathlib

/-!
The attribute and record encoders of color-slog-handler

A shallow embedding of the two record encoders of the handler
(`jsonBuilder` in `json_builder.go`, `colorizedTextBuilder` in
`text_builder.go`) and of the level helpers of `tools.go`.

Byte buffers (`[]byte`) and Go strings are Lean `String`s; `append(buf, x...)`
is `buf ++ x`.  Every encoder operation takes the buffer it appends to and
returns the extended buffer, as in the source.
-/

/-! ## The slog data model consumed by the encoders -/

/-- The wall-clock reading of a `time.Time` in its own location: the fields
`Time.Date()` and `Time.Clock()` return. -/
structure Time where
  year : Int
  month : Nat
  day : Nat
  hour : Nat
  minute : Nat
  second : Nat

/-- A `float64` payload, carried as the bytes that
`strconv.AppendFloat(nil, f, 'f', -1, 64)` produces for it. -/
structure Float64 where
  text : String

/-- The payload of a `KindAny` value: the nil interface (the payload of the zero
`slog.Value`), or a non-nil Go value carried as the outcome of `json.Marshal` on
it (`none` when marshalling returns an error). -/
inductive AnyValue where
  | nil
  | obj (marshal : Option String)

mutual
/-- A `slog.Value`, one constructor per `slog.Kind`. A `KindLogValuer` value is
carried as the value its `LogValue()` method returns. -/
inductive Value where
  | string (s : String)
  | int64 (i : Int)
  | uint64 (u : Nat)
  | float64 (f : Float64)
  | bool (b : Bool)
  | duration (d : Int)
  | time (t : Time)
  | group (as : List Attr)
  | any (a : AnyValue)
  | logValuer (next : Value)
/-- A `slog.Attr`: a key and a value. -/
inductive Attr where
  | mk (Key : String) (Value : Value)
end

/-- The key of an attribute. -/
def Attr.Key : Attr → String
  | .mk k _ => k

/-- The value of an attribute. -/
def Attr.Value : Attr → Value
  | .mk _ v => v

/-- The test `attr.Equal(slog.Attr{})`: the key is empty and the value is the
zero `slog.Value`, which has kind `KindAny` and a nil payload. -/
def Attr.isZero : Attr → Bool
  | .mk k (.any .nil) => k == ""
  | _ => false

/-- The zero attribute `slog.Attr{}`. -/
def Attr.zero : Attr := .mk "" (.any .nil)

/-- The test `value.Kind() == slog.KindGroup`. -/
def Value.isGroup : Value → Bool
  | .group _ => true
  | _ => false

/-- The test `value.Kind() == slog.KindLogValuer`. -/
def Value.isLogValuer : Value → Bool
  | .logValuer _ => true
  | _ => false

/-- A `slog.Level`: an integer severity. -/
abbrev Level := Int

def LevelDebugValue : Level := -4
def LevelInfoValue : Level := 0
def LevelWarnValue : Level := 4
def LevelErrorValue : Level := 8

/-- A `slog.Record` as the encoders read it: `NumAttrs()` is the length of
`attrs` and `Attrs(f)` visits `attrs` in order. -/
structure Record where
  Time : Time
  Level : Level
  Message : String
  attrs : List Attr

/-- The method `record.NumAttrs()`. -/
def Record.NumAttrs (r : Record) : Nat := r.attrs.length

/-! ## Library formatting -/

/-- Left-pads a digit string with `0` up to `width`. -/
def zeroPad (digits : String) (width : Nat) : String :=
  String.mk (List.replicate (width - digits.length) '0') ++ digits

/-- The helper `appendInt(b, x, width)` of package `time`: a sign for a negative
number, then the decimal digits zero-padded to `width`. -/
def appendInt (b : String) (x : Int) (width : Nat) : String :=
  let b := if x < 0 then b ++ "-" else b
  b ++ zeroPad (toString x.natAbs) width

/-- The call `t.AppendFormat(buf, time.DateTime)`, layout `2006-01-02 15:04:05`. -/
def Time.AppendFormatDateTime (buf : String) (t : Time) : String :=
  let buf := appendInt buf t.year 4
  let buf := buf ++ "-"
  let buf := appendInt buf t.month 2
  let buf := buf ++ "-"
  let buf := appendInt buf t.day 2
  let buf := buf ++ " "
  let buf := appendInt buf t.hour 2
  let buf := buf ++ ":"
  let buf := appendInt buf t.minute 2
  let buf := buf ++ ":"
  appendInt buf t.second 2

/-- The call `t.AppendFormat(buf, time.TimeOnly)`, layout `15:04:05`. -/
def Time.AppendFormatTimeOnly (buf : String) (t : Time) : String :=
  let buf := appendInt buf t.hour 2
  let buf := buf ++ ":"
  let buf := appendInt buf t.minute 2
  let buf := buf ++ ":"
  appendInt buf t.second 2

/-- The call `strconv.AppendInt(buf, i, 10)`. -/
def strconvAppendInt (buf : String) (i : Int) : String :=
  buf ++ toString i

/-- The call `strconv.AppendUint(buf, u, 10)`. -/
def strconvAppendUint (buf : String) (u : Nat) : String :=
  buf ++ toString u

/-- The loop of `fmtFrac` in package `time`: the low `prec` decimal digits of `v`
are written in front of `buf`, trailing zeros omitted. -/
def fmtFracLoop : Nat → String → Nat → Bool → String × Nat × Bool
  | 0, buf, v, print => (buf, v, print)
  | prec + 1, buf, v, print =>
    let digit := v % 10
    let print := print || digit != 0
    let buf := if print then toString digit ++ buf else buf
    fmtFracLoop prec buf (v / 10) print

/-- The helper `fmtFrac(buf, v, prec)` of package `time`. -/
def fmtFrac (buf : String) (v : Nat) (prec : Nat) : String × Nat :=
  let (buf, v, print) := fmtFracLoop prec buf v false
  (if print then "." ++ buf else buf, v)

/-- The helper `fmtInt(buf, v)` of package `time`: the decimal digits of `v` in
front of `buf`. -/
def fmtInt (buf : String) (v : Nat) : String :=
  toString v ++ buf

/-- The method `Duration.String()` of package `time`, on a nanosecond count. -/
def durationString (d : Int) : String :=
  let u := d.natAbs
  let neg := decide (d < 0)
  let w :=
    if u < 1000000000 then
      if u = 0 then "0s"
      else
        let (unit, prec) :=
          if u < 1000 then ("ns", 0)
          else if u < 1000000 then ("µs", 3)
          else ("ms", 6)
        let (w, u) := fmtFrac unit u prec
        fmtInt w u
    else
      let (w, u) := fmtFrac "s" u 9
      let w := fmtInt w (u % 60)
      let u := u / 60
      if u > 0 then
        let w := fmtInt ("m" ++ w) (u % 60)
        let u := u / 60
        if u > 0 then fmtInt ("h" ++ w) u else w
      else w
  if neg then "-" ++ w else w

/-- The call `json.Marshal(value.Any())`: `null` for the nil interface, else
the recorded outcome. -/
def jsonMarshal : AnyValue → Option String
  | .nil => some "null"
  | .obj m => m

/-- The bound `maxLogValues` of package `slog`. -/
def maxLogValues : Nat := 100

/-- The value `Resolve` returns when `LogValue` was called `maxLogValues` times: an
`AnyValue` holding an error, which `json.Marshal` renders as an empty object. -/
def resolveError : Value := .any (.obj (some "\x7b\x7d"))

/-- The loop of `Value.Resolve()`, with `fuel` iterations left. -/
def resolveLoop : Nat → Value → Value
  | 0, _ => resolveError
  | fuel + 1, .logValuer next => resolveLoop fuel next
  | _ + 1, v => v

/-- The method `Value.Resolve()`: calls `LogValue` until the value is no longer a
`LogValuer`, at most `maxLogValues` times. -/
def Value.Resolve (v : Value) : Value := resolveLoop maxLogValues v

/-! ## tools.go -/

def reset : String := "\x1b[0m"
def red : String := "\x1b[31m"
def green : String := "\x1b[32m"
def yellow : String := "\x1b[33m"
def blue : String := "\x1b[34m"
def magenta : String := "\x1b[35m"
def cyan : String := "\x1b[36m"
/-- The empty color `none` of the source. -/
def noColor : String := ""

/-- Modelled from the spec: the level label constant `LevelDebug`, declared outside
the files at hand; the spec gives the `level` field the values
`DEBUG`/`INFO`/`WARN`/`ERROR`. -/
def LevelDebug : String := "DEBUG"
/-- Modelled from the spec: the level label constant `LevelInfo`. -/
def LevelInfo : String := "INFO"
/-- Modelled from the spec: the level label constant `LevelWarn`. -/
def LevelWarn : String := "WARN"
/-- Modelled from the spec: the level label constant `LevelError`. -/
def LevelError : String := "ERROR"

def levelColor (l : Level) : String :=
  if l = LevelDebugValue then blue
  else if l = LevelInfoValue then green
  else if l = LevelWarnValue then yellow
  else if l = LevelErrorValue then red
  else noColor

def ParseLevel (level : Int) : String :=
  if level = LevelDebugValue then "DEBUG"
  else if level = LevelInfoValue then "INFO"
  else if level = LevelWarnValue then "WARN"
  else if level = LevelErrorValue then "ERROR"
  else "INFO"

def levelBytes (level : Level) : String :=
  if level = LevelDebugValue then LevelDebug
  else if level = LevelInfoValue then LevelInfo
  else if level = LevelWarnValue then LevelWarn
  else if level = LevelErrorValue then LevelError
  else LevelInfo

/-! ## json_builder.go -/

namespace jsonBuilder

def writeValue (buf : String) (value : Value) : String :=
  match value with
  | .string str =>
    let buf := buf ++ "\""
    let buf := if str = "" then buf ++ "!EMPTY_VALUE" else buf ++ str
    buf ++ "\""
  | .int64 i => strconvAppendInt buf i
  | .uint64 u => strconvAppendUint buf u
  | .float64 f => buf ++ f.text
  | .bool b => if b then buf ++ "true" else buf ++ "false"
  | .duration d => strconvAppendInt buf d
  | .time t =>
    let buf := buf ++ "\""
    let buf := t.AppendFormatDateTime buf
    buf ++ "\""
  | .any a =>
    match jsonMarshal a with
    | Option.none => buf ++ "!ERR_MARSHAL"
    | some b => buf ++ b
  | _ => buf ++ "!UNHANDLED"

mutual
def appendAttr (buf : String) (_x : String) : Attr → String
  | .mk key value =>
    if (Attr.mk key value).isZero then buf
    else
      match value with
      | .group group =>
        if group.length = 0 then buf
        else
          let buf := if key ≠ "" then buf ++ "\"" ++ key ++ "\":\x7b" else buf
          let buf := appendGroup buf true group
          if key ≠ "" then buf ++ "\x7d" else buf
      | value =>
        let buf := buf ++ "\""
        let buf := if key = "" then buf ++ "!EMPTY_KEY" else buf ++ key
        let buf := buf ++ "\":"
        writeValue buf value
/-- The loop `for _, v := range group` of `appendAttr`, carrying `buf` and `isFirst`. -/
def appendGroup (buf : String) (isFirst : Bool) : List Attr → String
  | [] => buf
  | v :: rest =>
    if v.isZero then appendGroup buf isFirst rest
    else
      let buf := if !isFirst then buf ++ "," else buf
      appendGroup (appendAttr buf "" v) false rest
end

/-- The callback loop `record.Attrs(func ...)` of `buildLog`, carrying `buf` and
`isFirst`. -/
def buildLogAttrs (buf : String) (isFirst : Bool) : List Attr → String
  | [] => buf
  | attr :: rest =>
    let buf := if !isFirst then buf ++ "," else buf
    buildLogAttrs (appendAttr buf "" attr) false rest

def buildLog (buf : String) (record : Record) (precomputedAttrs : String)
    (groupPrefix : String) : String :=
  let buf := buf ++ "\x7b\"time\":\""
  let buf := record.Time.AppendFormatDateTime buf
  let buf := buf ++ "\",\"level\":\""
  let buf := buf ++ levelBytes record.Level
  let buf := buf ++ "\",\"msg\":\""
  let buf := buf ++ record.Message
  let buf := buf ++ "\""
  let buf :=
    if record.NumAttrs > 0 ∨ precomputedAttrs ≠ "" then
      let buf := buf ++ ","
      let buf := if groupPrefix ≠ "" then buf ++ groupPrefix else buf
      let buf :=
        if record.NumAttrs > 0 then
          let buf := if precomputedAttrs ≠ "" then buf ++ precomputedAttrs ++ "," else buf
          buildLogAttrs buf true record.attrs
        else buf ++ precomputedAttrs
      if groupPrefix ≠ "" then buf ++ "\x7d" else buf
    else buf
  buf ++ "\x7d\n"

/-- The loop `for i, attr := range attrs` of `precomputeAttrs`, at index `i`. -/
def precomputeLoop (attrsCount : Int) (buf : String) (i : Nat) : List Attr → String
  | [] => buf
  | attr :: rest =>
    let buf := appendAttr buf "" attr
    let buf := if attrsCount ≠ (i : Int) then buf ++ "," else buf
    precomputeLoop attrsCount buf (i + 1) rest

def precomputeAttrs (buf : String) (_x : String) (attrs : List Attr) : String :=
  let attrsCount : Int := (attrs.length : Int) - 1
  precomputeLoop attrsCount buf 0 attrs

def groupPrefix (oldPrefix : String) (newPrefix : String) : String :=
  oldPrefix ++ "\"" ++ newPrefix ++ "\":\x7b"

end jsonBuilder

/-! ## text_builder.go -/

structure colorOptions where
  TimeColor : String
  KeyColor : String
  ValueColor : String

structure colorizedTextBuilder where
  colorOpts : colorOptions

/-- The builder `NewTextHandler` constructs: `newColorOptions(blue, magenta, none)`. -/
def defaultTextBuilder : colorizedTextBuilder := ⟨⟨blue, magenta, noColor⟩⟩

/-- The slice expression `s[:n]` on a string of at least `n` bytes. -/
def sliceTo (s : String) (n : Nat) : String := String.mk (s.data.take n)

namespace colorizedTextBuilder

def writeValue (buf : String) (value : Value) : String :=
  match value with
  | .string str =>
    let str := if str = "" then "!EMPTY_VALUE" else str
    buf ++ str
  | .int64 i => strconvAppendInt buf i
  | .uint64 u => strconvAppendUint buf u
  | .float64 f => buf ++ f.text
  | .bool b => if b then buf ++ "true" else buf ++ "false"
  | .duration d => buf ++ durationString d
  | .time t => t.AppendFormatDateTime buf
  | .any a =>
    match jsonMarshal a with
    | Option.none => buf ++ "!ERR_MARSHAL"
    | some b => buf ++ b
  | _ => buf ++ "!UNHANDLED"

/-- The tail of `appendAttr` for an attribute that is not a group: the colorized
` key=value` pair. -/
def appendLeaf (b : colorizedTextBuilder) (buf : String) (groupPrefix : String)
    (key : String) (value : Value) : String :=
  let buf := buf ++ " "
  let buf := buf ++ b.colorOpts.KeyColor
  let buf := if groupPrefix.length > 0 then buf ++ groupPrefix else buf
  let key := if key = "" then "!EMPTY_KEY" else key
  let buf := buf ++ key
  let buf := buf ++ "="
  let buf := buf ++ reset
  let buf := buf ++ b.colorOpts.ValueColor
  let buf := writeValue buf value
  buf ++ reset

mutual
/-- The body of `appendAttr` on the key and the value of the attribute, with the loop of
`attr.Value.Resolve()` run in step with the descent into the value: `fuel` is the
number of `Resolve` iterations left. -/
def appendAttrValue (b : colorizedTextBuilder) (buf : String) (groupPrefix : String)
    (key : String) : Nat → Value → String
  | 0, _ => appendLeaf b buf groupPrefix key resolveError
  | fuel + 1, .logValuer next => appendAttrValue b buf groupPrefix key fuel next
  | _ + 1, .group group =>
    let groupPrefix := if key ≠ "" then groupPrefix ++ key ++ "." else groupPrefix
    appendGroup b buf groupPrefix group
  | _ + 1, value =>
    if (Attr.mk key value).isZero then buf
    else appendLeaf b buf groupPrefix key value
def appendAttr (b : colorizedTextBuilder) (buf : String) (groupPrefix : String) :
    Attr → String
  | .mk key value => appendAttrValue b buf groupPrefix key maxLogValues value
/-- The loop `for _, v := range attr.Value.Group()` of `appendAttr`. -/
def appendGroup (b : colorizedTextBuilder) (buf : String) (groupPrefix : String) :
    List Attr → String
  | [] => buf
  | v :: rest => appendGroup b (appendAttr b buf groupPrefix v) groupPrefix rest
end

def buildLog (b : colorizedTextBuilder) (buf : String) (record : Record)
    (precomputedAttrs : String) (groupPrefix : String) : String :=
  let buf := buf ++ b.colorOpts.TimeColor
  let buf := record.Time.AppendFormatTimeOnly buf
  let buf := buf ++ reset
  let buf := buf ++ " | "
  let levelColor := levelColor record.Level
  let buf := buf ++ levelColor
  let buf := buf ++ sliceTo (levelBytes record.Level) 4
  let buf := buf ++ reset
  let buf := buf ++ " | "
  let buf := buf ++ levelColor
  let buf := buf ++ record.Message
  let buf := buf ++ reset
  let buf := if precomputedAttrs.length > 0 then buf ++ precomputedAttrs else buf
  let buf :=
    if record.NumAttrs > 0 then
      let pref := ""
      let pref := if groupPrefix.length > 0 then pref ++ groupPrefix else pref
      record.attrs.foldl (fun buf attr => appendAttr b buf pref attr) buf
    else buf
  buf ++ "\n"

def precomputeAttrs (b : colorizedTextBuilder) (buf : String) (groupPrefix : String)
    (attrs : List Attr) : String :=
  let pref := ""
  let pref := if groupPrefix.length > 0 then pref ++ groupPrefix else pref
  attrs.foldl (fun buf attr => appendAttr b buf pref attr) buf

def groupPrefix (_b : colorizedTextBuilder) (oldPrefix : String) (newPrefix : String) :
    String :=
  oldPrefix ++ newPrefix ++ "."

end colorizedTextBuilder

/-! ## Notions used to state the properties -/

/-- The scan that drops ANSI color sequences: inside a sequence (`inEscape`) every
character up to and including the final `m` is dropped. -/
def stripColorsAux : Bool → List Char → List Char
  | _, [] => []
  | false, c :: cs =>
    if c = Char.ofNat 27 then stripColorsAux true cs else c :: stripColorsAux false cs
  | true, c :: cs =>
    if c = Char.ofNat 109 then stripColorsAux false cs else stripColorsAux true cs

/-- A line with every color sequence and reset removed. -/
def stripColors (s : String) : String := String.mk (stripColorsAux false s.data)

mutual
/-- An attribute that contains no leaf at any depth: the zero attribute, or a group
whose members all contain no leaf. -/
def Attr.noLeaf : Attr → Bool
  | .mk _ (.group as) => noLeafList as
  | .mk k (.any .nil) => k == ""
  | _ => false
/-- Every attribute of the list contains no leaf. -/
def noLeafList : List Attr → Bool
  | [] => true
  | a :: as => a.noLeaf && noLeafList as
end

mutual
/-- An attribute of the nested-object shape: a leaf (not a group, not the zero
attribute), or a group with a non-empty member list of attributes of this shape. -/
def Attr.nestedShape : Attr → Bool
  | .mk _ (.group as) => !as.isEmpty && nestedShapeList as
  | .mk k (.any .nil) => !(k == "")
  | _ => true
/-- Every attribute of the list has the nested-object shape. -/
def nestedShapeList : List Attr → Bool
  | [] => true
  | a :: as => a.nestedShape && nestedShapeList as
end

/-- The number of occurrences of a character in a string. -/
def countChar (c : Char) (s : String) : Nat := s.data.count c

/-- The fixed timestamp of the worked examples: 2024-01-01 00:00:00. -/
def exampleTime : Time := ⟨2024, 1, 1, 0, 0, 0⟩

/-! ## Frame lemmas: every operation only appends -/

theorem appendInt_frame (b : String) (x : Int) (width : Nat) :
    appendInt b x width = b ++ appendInt "" x width := by
  unfold appendInt
  split <;> simp [String.append_assoc]

theorem AppendFormatDateTime_frame (buf : String) (t : Time) :
    t.AppendFormatDateTime buf = buf ++ t.AppendFormatDateTime "" := by
  simp only [Time.AppendFormatDateTime]
  rw [appendInt_frame _ _ 2, appendInt_frame _ (t.minute : Int) 2, appendInt_frame _ (t.hour : Int) 2,
    appendInt_frame _ (t.day : Int) 2, appendInt_frame _ (t.month : Int) 2, appendInt_frame buf t.year 4]
  conv_rhs =>
    rw [appendInt_frame _ _ 2, appendInt_frame _ (t.minute : Int) 2, appendInt_frame _ (t.hour : Int) 2,
      appendInt_frame _ (t.day : Int) 2, appendInt_frame _ (t.month : Int) 2]
  simp only [String.append_assoc]

theorem AppendFormatTimeOnly_frame (buf : String) (t : Time) :
    t.AppendFormatTimeOnly buf = buf ++ t.AppendFormatTimeOnly "" := by
  simp only [Time.AppendFormatTimeOnly]
  rw [appendInt_frame _ _ 2, appendInt_frame _ (t.minute : Int) 2, appendInt_frame buf (t.hour : Int) 2]
  conv_rhs =>
    rw [appendInt_frame _ _ 2, appendInt_frame _ (t.minute : Int) 2]
  simp only [String.append_assoc]

namespace jsonBuilder

theorem writeValue_frame (buf : String) (value : Value) :
    writeValue buf value = buf ++ writeValue "" value := by
  cases value with
  | string s => simp only [writeValue]; split <;> simp [String.append_assoc]
  | bool b => cases b <;> simp [writeValue]
  | time t =>
    simp only [writeValue]
    rw [AppendFormatDateTime_frame (buf ++ "\""), AppendFormatDateTime_frame ("" ++ "\"")]
    simp [String.append_assoc]
  | any a => simp only [writeValue]; split <;> simp
  | _ => simp [writeValue, strconvAppendInt, strconvAppendUint]

/-- The non-group branch of `appendAttr`. -/
theorem appendAttr_leaf (buf x key : String) (value : Value) (h : value.isGroup = false) :
    appendAttr buf x (.mk key value) =
      if (Attr.mk key value).isZero then buf
      else writeValue (buf ++ "\"" ++ (if key = "" then "!EMPTY_KEY" else key) ++ "\":") value := by
  cases value <;> first
    | (simp [Value.isGroup] at h; done)
    | (simp only [appendAttr]; split
       · rfl
       · split <;> simp_all [String.append_assoc])

theorem appendAttr_leaf_frame (buf x key : String) (value : Value)
    (h : value.isGroup = false) :
    appendAttr buf x (.mk key value) = buf ++ appendAttr "" x (.mk key value) := by
  rw [appendAttr_leaf buf x key value h, appendAttr_leaf "" x key value h]
  split
  · simp
  · rw [writeValue_frame, writeValue_frame (_ ++ "\":")]
    simp [String.append_assoc]

mutual
theorem appendAttr_frame : ∀ (attr : Attr) (buf : String) (x : String),
    appendAttr buf x attr = buf ++ appendAttr "" x attr
  | .mk key (.group group), buf, x => by
    simp only [appendAttr]
    by_cases hz : (Attr.mk key (Value.group group)).isZero = true
    · simp [hz]
    · simp only [hz, Bool.false_eq_true, ↓reduceIte]
      by_cases hl : group.length = 0
      · simp [hl]
      · simp only [hl, ↓reduceIte]
        by_cases hk : key = ""
        · simp only [hk, ne_eq, not_true_eq_false, ↓reduceIte]
          exact appendGroup_frame group buf true
        · simp only [hk, ne_eq, not_false_eq_true, ↓reduceIte]
          rw [appendGroup_frame group (buf ++ "\"" ++ key ++ "\":\x7b") true,
            appendGroup_frame group ("" ++ "\"" ++ key ++ "\":\x7b") true]
          simp [String.append_assoc]
  | .mk key (.string s), buf, x => appendAttr_leaf_frame buf x key _ rfl
  | .mk key (.int64 s), buf, x => appendAttr_leaf_frame buf x key _ rfl
  | .mk key (.uint64 s), buf, x => appendAttr_leaf_frame buf x key _ rfl
  | .mk key (.float64 s), buf, x => appendAttr_leaf_frame buf x key _ rfl
  | .mk key (.bool s), buf, x => appendAttr_leaf_frame buf x key _ rfl
  | .mk key (.duration s), buf, x => appendAttr_leaf_frame buf x key _ rfl
  | .mk key (.time s), buf, x => appendAttr_leaf_frame buf x key _ rfl
  | .mk key (.any s), buf, x => appendAttr_leaf_frame buf x key _ rfl
  | .mk key (.logValuer s), buf, x => appendAttr_leaf_frame buf x key _ rfl
theorem appendGroup_frame : ∀ (group : List Attr) (buf : String) (isFirst : Bool),
    appendGroup buf isFirst group = buf ++ appendGroup "" isFirst group
  | [], buf, isFirst => by simp [appendGroup]
  | v :: rest, buf, isFirst => by
    simp only [appendGroup]
    by_cases hz : v.isZero = true
    · simp only [hz, ↓reduceIte]
      exact appendGroup_frame rest buf isFirst
    · simp only [hz, Bool.false_eq_true, ↓reduceIte]
      rw [appendGroup_frame rest (appendAttr _ "" v) false,
        appendGroup_frame rest (appendAttr (if (!isFirst) = true then "" ++ "," else "") "" v) false,
        appendAttr_frame v (if (!isFirst) = true then buf ++ "," else buf) "",
        appendAttr_frame v (if (!isFirst) = true then "" ++ "," else "") ""]
      cases isFirst <;> simp [String.append_assoc]
end

end jsonBuilder

/-! ## Joining encodings with a separator -/

theorem intercalate_go_frame (sep : String) : ∀ (l : List String) (acc : String),
    String.intercalate.go acc sep l = acc ++ String.intercalate.go "" sep l
  | [], acc => by simp [String.intercalate.go]
  | a :: l, acc => by
    simp only [String.intercalate.go]
    rw [intercalate_go_frame sep l (acc ++ sep ++ a), intercalate_go_frame sep l ("" ++ sep ++ a)]
    simp [String.append_assoc]

theorem intercalate_go_cons (sep a : String) (l : List String) :
    String.intercalate.go "" sep (a :: l) = sep ++ a ++ String.intercalate.go "" sep l := by
  simp only [String.intercalate.go]
  rw [intercalate_go_frame sep l ("" ++ sep ++ a)]
  simp

theorem intercalate_cons (sep a : String) (l : List String) :
    String.intercalate sep (a :: l) = a ++ String.intercalate.go "" sep l := by
  simp only [String.intercalate]
  exact intercalate_go_frame sep l a

theorem intercalate_cons_cons (sep a b : String) (l : List String) :
    String.intercalate sep (a :: b :: l) = a ++ sep ++ String.intercalate sep (b :: l) := by
  rw [intercalate_cons, intercalate_cons, intercalate_go_cons]
  simp [String.append_assoc]

theorem string_length_pos_append (s t : String) :
    (if t.length > 0 then s ++ t else s) = s ++ t := by
  split
  · rfl
  · rename_i h
    have : t = "" := by
      cases t with
      | mk d =>
        cases d with
        | nil => rfl
        | cons c cs => simp [String.length] at h
    simp [this]

namespace jsonBuilder

theorem buildLogAttrs_false : ∀ (attrs : List Attr) (buf : String),
    buildLogAttrs buf false attrs =
      buf ++ String.intercalate.go "" "," (attrs.map (appendAttr "" ""))
  | [], buf => by simp [buildLogAttrs, String.intercalate.go]
  | a :: rest, buf => by
    simp only [buildLogAttrs, List.map_cons]
    rw [buildLogAttrs_false rest, intercalate_go_cons, appendAttr_frame]
    simp [String.append_assoc]

theorem buildLogAttrs_true (attrs : List Attr) (buf : String) :
    buildLogAttrs buf true attrs =
      buf ++ String.intercalate "," (attrs.map (appendAttr "" "")) := by
  cases attrs with
  | nil => simp [buildLogAttrs, String.intercalate]
  | cons a rest =>
    simp only [buildLogAttrs, List.map_cons]
    rw [buildLogAttrs_false rest, intercalate_cons, appendAttr_frame]
    simp [String.append_assoc]

theorem precomputeLoop_eq : ∀ (attrs : List Attr) (buf : String) (i : Nat),
    precomputeLoop ((i : Int) + (attrs.length : Int) - 1) buf i attrs =
      buf ++ String.intercalate "," (attrs.map (appendAttr "" ""))
  | [], buf, i => by simp [precomputeLoop, String.intercalate]
  | [a], buf, i => by
    simp [precomputeLoop, String.intercalate, String.intercalate.go]
    exact appendAttr_frame a buf ""
  | a :: b :: rest, buf, i => by
    have h := precomputeLoop_eq (b :: rest) (appendAttr buf "" a ++ ",") (i + 1)
    have e : ((i : Int) + ((a :: b :: rest).length : Int) - 1)
        = (((i + 1 : Nat) : Int) + ((b :: rest).length : Int) - 1) := by
      simp only [List.length_cons]; push_cast; ring
    have ne : ((i : Int) + ((a :: b :: rest).length : Int) - 1) ≠ (i : Int) := by
      simp only [List.length_cons]; push_cast; omega
    rw [precomputeLoop]
    simp only [ne, ne_eq, not_false_eq_true, ↓reduceIte]
    rw [e, h, appendAttr_frame a buf ""]
    simp only [List.map_cons]
    rw [intercalate_cons_cons]
    simp [String.append_assoc]

theorem precomputeAttrs_eq (buf x : String) (attrs : List Attr) :
    precomputeAttrs buf x attrs =
      buf ++ String.intercalate "," (attrs.map (appendAttr "" "")) := by
  have h := precomputeLoop_eq attrs buf 0
  simp only [precomputeAttrs]
  simpa using h

end jsonBuilder

namespace colorizedTextBuilder

theorem writeValue_text_frame (buf : String) (value : Value) :
    writeValue buf value = buf ++ writeValue "" value := by
  cases value with
  | bool b => cases b <;> simp [writeValue]
  | time t =>
    simp only [writeValue]
    exact AppendFormatDateTime_frame buf t
  | any a => simp only [writeValue]; split <;> simp
  | _ => simp [writeValue, strconvAppendInt, strconvAppendUint]

theorem appendLeaf_eq (b : colorizedTextBuilder) (buf p key : String) (value : Value) :
    appendLeaf b buf p key value =
      buf ++ " " ++ b.colorOpts.KeyColor ++ p ++ (if key = "" then "!EMPTY_KEY" else key)
        ++ "=" ++ reset ++ b.colorOpts.ValueColor ++ writeValue "" value ++ reset := by
  simp only [appendLeaf]
  rw [string_length_pos_append, writeValue_text_frame]

theorem appendLeaf_frame (b : colorizedTextBuilder) (buf p key : String) (value : Value) :
    appendLeaf b buf p key value = buf ++ appendLeaf b "" p key value := by
  rw [appendLeaf_eq, appendLeaf_eq b ""]
  simp [-String.reduceAppend, String.append_assoc]

/-- The branch of `appendAttr` for a resolved value that is not a group. -/
theorem appendAttrValue_leaf (b : colorizedTextBuilder) (buf p key : String) (fuel : Nat)
    (value : Value) (hg : value.isGroup = false) (hl : value.isLogValuer = false) :
    appendAttrValue b buf p key (fuel + 1) value =
      if (Attr.mk key value).isZero then buf else appendLeaf b buf p key value := by
  cases value <;> first
    | (simp [Value.isGroup] at hg; done)
    | (simp [Value.isLogValuer] at hl; done)
    | simp only [appendAttrValue]

theorem appendAttrValue_leaf_frame (b : colorizedTextBuilder) (buf p key : String)
    (fuel : Nat) (value : Value) (hg : value.isGroup = false)
    (hl : value.isLogValuer = false) :
    appendAttrValue b buf p key (fuel + 1) value =
      buf ++ appendAttrValue b "" p key (fuel + 1) value := by
  rw [appendAttrValue_leaf b buf p key fuel value hg hl,
    appendAttrValue_leaf b "" p key fuel value hg hl]
  split
  · simp
  · exact appendLeaf_frame b buf p key value

mutual
theorem appendAttrValue_frame (b : colorizedTextBuilder) :
    ∀ (value : Value) (fuel : Nat) (buf p key : String),
      appendAttrValue b buf p key fuel value = buf ++ appendAttrValue b "" p key fuel value
  | _, 0, buf, p, key => by
    simp only [appendAttrValue]
    exact appendLeaf_frame b buf p key resolveError
  | .logValuer next, fuel + 1, buf, p, key => by
    simp only [appendAttrValue]
    exact appendAttrValue_frame b next fuel buf p key
  | .group group, fuel + 1, buf, p, key => by
    simp only [appendAttrValue]
    exact appendGroup_text_frame b group buf _
  | .string _, fuel + 1, buf, p, key => appendAttrValue_leaf_frame b buf p key fuel _ rfl rfl
  | .int64 _, fuel + 1, buf, p, key => appendAttrValue_leaf_frame b buf p key fuel _ rfl rfl
  | .uint64 _, fuel + 1, buf, p, key => appendAttrValue_leaf_frame b buf p key fuel _ rfl rfl
  | .float64 _, fuel + 1, buf, p, key => appendAttrValue_leaf_frame b buf p key fuel _ rfl rfl
  | .bool _, fuel + 1, buf, p, key => appendAttrValue_leaf_frame b buf p key fuel _ rfl rfl
  | .duration _, fuel + 1, buf, p, key => appendAttrValue_leaf_frame b buf p key fuel _ rfl rfl
  | .time _, fuel + 1, buf, p, key => appendAttrValue_leaf_frame b buf p key fuel _ rfl rfl
  | .any _, fuel + 1, buf, p, key => appendAttrValue_leaf_frame b buf p key fuel _ rfl rfl
theorem appendAttr_text_frame (b : colorizedTextBuilder) :
    ∀ (attr : Attr) (buf p : String),
      appendAttr b buf p attr = buf ++ appendAttr b "" p attr
  | .mk key value, buf, p => by
    simp only [appendAttr]
    exact appendAttrValue_frame b value maxLogValues buf p key
theorem appendGroup_text_frame (b : colorizedTextBuilder) :
    ∀ (group : List Attr) (buf p : String),
      appendGroup b buf p group = buf ++ appendGroup b "" p group
  | [], buf, p => by simp [appendGroup]
  | v :: rest, buf, p => by
    simp only [appendGroup]
    rw [appendGroup_text_frame b rest (appendAttr b buf p v),
      appendGroup_text_frame b rest (appendAttr b "" p v), appendAttr_text_frame b v buf p]
    simp [String.append_assoc]
end

end colorizedTextBuilder

theorem join_frame : ∀ (l : List String) (acc : String),
    l.foldl (fun r s => r ++ s) acc = acc ++ String.join l
  | [], acc => by simp [String.join]
  | a :: l, acc => by
    simp only [List.foldl_cons, String.join]
    rw [join_frame l (acc ++ a), join_frame l ("" ++ a)]
    simp [String.append_assoc]

theorem join_cons (a : String) (l : List String) :
    String.join (a :: l) = a ++ String.join l := by
  show List.foldl (fun r s => r ++ s) "" (a :: l) = a ++ String.join l
  simp only [List.foldl_cons]
  rw [join_frame l ("" ++ a)]
  simp

theorem resolveLoop_not_logValuer : ∀ (fuel : Nat) (v : Value),
    (resolveLoop fuel v).isLogValuer = false
  | 0, _ => rfl
  | fuel + 1, .logValuer next => by
    simp only [resolveLoop]
    exact resolveLoop_not_logValuer fuel next
  | _ + 1, .string _ => rfl
  | _ + 1, .int64 _ => rfl
  | _ + 1, .uint64 _ => rfl
  | _ + 1, .float64 _ => rfl
  | _ + 1, .bool _ => rfl
  | _ + 1, .duration _ => rfl
  | _ + 1, .time _ => rfl
  | _ + 1, .group _ => rfl
  | _ + 1, .any _ => rfl

theorem resolveLoop_of_not_logValuer (fuel : Nat) (v : Value) (h : v.isLogValuer = false) :
    resolveLoop (fuel + 1) v = v := by
  cases v <;> first
    | (simp [Value.isLogValuer] at h; done)
    | rfl

namespace colorizedTextBuilder

theorem foldl_appendAttr (b : colorizedTextBuilder) (p : String) :
    ∀ (attrs : List Attr) (buf : String),
      attrs.foldl (fun buf attr => appendAttr b buf p attr) buf =
        buf ++ String.join (attrs.map (appendAttr b "" p))
  | [], buf => by simp [String.join]
  | a :: rest, buf => by
    simp only [List.foldl_cons, List.map_cons]
    rw [foldl_appendAttr b p rest, join_cons, appendAttr_text_frame b a buf p]
    simp [String.append_assoc]

theorem appendGroup_eq_foldl (b : colorizedTextBuilder) (p : String) :
    ∀ (group : List Attr) (buf : String),
      appendGroup b buf p group =
        group.foldl (fun buf attr => appendAttr b buf p attr) buf
  | [], buf => by simp [appendGroup]
  | v :: rest, buf => by
    simp only [appendGroup, List.foldl_cons]
    exact appendGroup_eq_foldl b p rest _

/-- The recursion of `appendAttr` runs the loop of `Resolve` first: its result on a
value is its result on the resolved value. -/
theorem appendAttrValue_resolve (b : colorizedTextBuilder) (buf p key : String) :
    ∀ (fuel : Nat) (value : Value),
      appendAttrValue b buf p key fuel value =
        appendAttrValue b buf p key 1 (resolveLoop fuel value)
  | 0, _ => by
    simp only [appendAttrValue, resolveLoop]
    rfl
  | fuel + 1, .logValuer next => by
    simp only [appendAttrValue, resolveLoop]
    exact appendAttrValue_resolve b buf p key fuel next
  | _ + 1, .string _ => rfl
  | _ + 1, .int64 _ => rfl
  | _ + 1, .uint64 _ => rfl
  | _ + 1, .float64 _ => rfl
  | _ + 1, .bool _ => rfl
  | _ + 1, .duration _ => rfl
  | _ + 1, .time _ => rfl
  | _ + 1, .group _ => rfl
  | _ + 1, .any _ => rfl

/-- The body of `appendAttr` in the order of the source: resolve the value, return on
the zero attribute, recurse into a group under the extended prefix, else write the
colorized pair. -/
theorem appendAttr_eq (b : colorizedTextBuilder) (buf p key : String) (value : Value) :
    appendAttr b buf p (.mk key value) =
      if (Attr.mk key value.Resolve).isZero then buf
      else
        match value.Resolve with
        | .group group =>
          (group.foldl (fun buf attr => appendAttr b buf
            (if key ≠ "" then p ++ key ++ "." else p) attr) buf)
        | resolved => appendLeaf b buf p key resolved := by
  simp only [appendAttr]
  rw [appendAttrValue_resolve]
  have hl := resolveLoop_not_logValuer maxLogValues value
  simp only [Value.Resolve]
  generalize resolveLoop maxLogValues value = r at hl
  cases r with
  | logValuer n => simp [Value.isLogValuer] at hl
  | group g =>
    simp only [appendAttrValue, Attr.isZero, Bool.false_eq_true, ↓reduceIte]
    exact appendGroup_eq_foldl b _ g buf
  | _ => simp only [appendAttrValue]

/-- A leaf attribute: the resolved value is not a group and the attribute is not zero. -/
theorem appendAttr_leaf_text (b : colorizedTextBuilder) (buf p key : String) (value : Value)
    (hg : value.Resolve.isGroup = false) (hz : (Attr.mk key value.Resolve).isZero = false) :
    appendAttr b buf p (.mk key value) = appendLeaf b buf p key value.Resolve := by
  rw [appendAttr_eq]
  simp only [hz, Bool.false_eq_true, ↓reduceIte]
  generalize value.Resolve = r at hg
  cases r <;> first
    | (simp [Value.isGroup] at hg; done)
    | rfl

end colorizedTextBuilder

theorem sliceTo_levelBytes (l : Level) : sliceTo (levelBytes l) 4 = (levelBytes l).take 4 := by
  unfold levelBytes
  split_ifs <;> decide

theorem prefix_copy (groupPrefix : String) :
    (if groupPrefix.length > 0 then "" ++ groupPrefix else "") = groupPrefix := by
  have h := string_length_pos_append "" groupPrefix
  simpa using h

/-- The layout of the machine-readable record. -/
theorem buildLog_json_eq (buf : String) (record : Record) (P G : String) :
    jsonBuilder.buildLog buf record P G =
      buf ++ "\x7b\"time\":\"" ++ record.Time.AppendFormatDateTime "" ++ "\",\"level\":\""
        ++ levelBytes record.Level ++ "\",\"msg\":\"" ++ record.Message ++ "\""
        ++ (if record.attrs.length = 0 ∧ P = "" then ""
            else "," ++ G ++ P
              ++ (if P ≠ "" ∧ record.attrs.length ≠ 0 then "," else "")
              ++ String.intercalate "," (record.attrs.map (jsonBuilder.appendAttr "" ""))
              ++ (if G ≠ "" then "\x7d" else ""))
        ++ "\x7d\n" := by
  simp only [jsonBuilder.buildLog, Record.NumAttrs]
  rw [AppendFormatDateTime_frame]
  by_cases hA : record.attrs.length = 0
  · have hnil : record.attrs = [] := List.length_eq_zero.mp hA
    by_cases hP : P = ""
    · simp [-String.reduceAppend, hA, hP, String.append_assoc]
    · by_cases hG : G = "" <;>
        simp [-String.reduceAppend, hA, hP, hG, hnil, String.intercalate, String.append_assoc]
  · have hpos : record.attrs.length > 0 := Nat.pos_of_ne_zero hA
    by_cases hP : P = "" <;> by_cases hG : G = "" <;>
      simp [-String.reduceAppend, hA, hpos, hP, hG, jsonBuilder.buildLogAttrs_true,
        String.append_assoc]

/-- The layout of the human-readable record. -/
theorem buildLog_text_eq (b : colorizedTextBuilder) (buf : String) (record : Record)
    (P G : String) :
    colorizedTextBuilder.buildLog b buf record P G =
      buf ++ b.colorOpts.TimeColor ++ record.Time.AppendFormatTimeOnly "" ++ reset ++ " | "
        ++ levelColor record.Level ++ (levelBytes record.Level).take 4 ++ reset ++ " | "
        ++ levelColor record.Level ++ record.Message ++ reset
        ++ P
        ++ String.join (record.attrs.map (colorizedTextBuilder.appendAttr b "" G))
        ++ "\n" := by
  simp only [colorizedTextBuilder.buildLog, Record.NumAttrs]
  rw [AppendFormatTimeOnly_frame, prefix_copy, string_length_pos_append, sliceTo_levelBytes,
    colorizedTextBuilder.foldl_appendAttr]
  by_cases hA : record.attrs.length > 0
  · simp [-String.reduceAppend, hA, String.append_assoc]
  · have hnil : record.attrs = [] := List.length_eq_zero.mp (by omega)
    simp [-String.reduceAppend, hnil, String.join, String.append_assoc]

theorem isZero_eq_zero (a : Attr) (h : a.isZero = true) : a = Attr.zero := by
  cases a with
  | mk k v =>
    cases v with
    | any a =>
      cases a with
      | nil =>
        have hk : k = "" := by simpa [Attr.isZero] using h
        rw [hk]; rfl
      | obj m => simp [Attr.isZero] at h
    | _ => simp [Attr.isZero] at h

theorem appendAttr_text_zero (b : colorizedTextBuilder) (buf p : String) :
    colorizedTextBuilder.appendAttr b buf p Attr.zero = buf := rfl

theorem join_filter_zero (b : colorizedTextBuilder) (p : String) : ∀ (attrs : List Attr),
    String.join ((attrs.filter (fun a => !a.isZero)).map
        (colorizedTextBuilder.appendAttr b "" p)) =
      String.join (attrs.map (colorizedTextBuilder.appendAttr b "" p))
  | [] => rfl
  | a :: rest => by
    by_cases hz : a.isZero = true
    · have ha := isZero_eq_zero a hz
      simp only [List.filter_cons, hz, Bool.not_true, Bool.false_eq_true, ↓reduceIte,
        List.map_cons]
      rw [join_cons, join_filter_zero b p rest, ha, appendAttr_text_zero]
      simp
    · simp only [List.filter_cons, hz, Bool.not_false, ↓reduceIte, List.map_cons]
      rw [join_cons, join_cons, join_filter_zero b p rest]

namespace jsonBuilder

theorem appendAttr_group (buf x key : String) (group : List Attr) :
    appendAttr buf x (.mk key (.group group)) =
      if group.length = 0 then buf
      else if key ≠ "" then appendGroup (buf ++ "\"" ++ key ++ "\":\x7b") true group ++ "\x7d"
      else appendGroup buf true group := by
  simp only [appendAttr, Attr.isZero, Bool.false_eq_true, ↓reduceIte]
  split
  · rfl
  · split <;> rfl

theorem appendGroup_all_zero : ∀ (group : List Attr) (buf : String) (isFirst : Bool),
    (∀ m ∈ group, m.isZero = true) → appendGroup buf isFirst group = buf
  | [], _, _, _ => by simp [appendGroup]
  | v :: rest, buf, isFirst, h => by
    have hv : v.isZero = true := h v (List.mem_cons_self v rest)
    simp only [appendGroup, hv, ↓reduceIte]
    exact appendGroup_all_zero rest buf isFirst
      (fun m hm => h m (List.mem_cons_of_mem v hm))

theorem appendGroup_no_zero : ∀ (group : List Attr) (buf : String) (isFirst : Bool),
    (∀ m ∈ group, m.isZero = false) →
      appendGroup buf isFirst group = buildLogAttrs buf isFirst group
  | [], _, _, _ => by simp [appendGroup, buildLogAttrs]
  | v :: rest, buf, isFirst, h => by
    have hv : v.isZero = false := h v (List.mem_cons_self v rest)
    simp only [appendGroup, buildLogAttrs, hv, Bool.false_eq_true, ↓reduceIte]
    exact appendGroup_no_zero rest _ false (fun m hm => h m (List.mem_cons_of_mem v hm))

end jsonBuilder

theorem nestedShape_not_zero (a : Attr) (h : a.nestedShape = true) : a.isZero = false := by
  cases a with
  | mk k v =>
    cases v with
    | any a =>
      cases a with
      | nil => simpa [Attr.nestedShape, Attr.isZero] using h
      | obj m => rfl
    | _ => rfl

theorem nestedShapeList_not_zero : ∀ (ms : List Attr), nestedShapeList ms = true →
    ∀ m ∈ ms, m.isZero = false
  | [], _, m, hm => by simp at hm
  | a :: rest, h, m, hm => by
    simp only [nestedShapeList, Bool.and_eq_true] at h
    rcases List.mem_cons.mp hm with e | hm'
    · rw [e]; exact nestedShape_not_zero a h.1
    · exact nestedShapeList_not_zero rest h.2 m hm'

namespace colorizedTextBuilder

mutual
theorem appendAttr_noLeaf (b : colorizedTextBuilder) : ∀ (attr : Attr) (buf p : String),
    attr.noLeaf = true → appendAttr b buf p attr = buf
  | .mk key (.group group), buf, p, h => by
    have hg : noLeafList group = true := by simpa [Attr.noLeaf] using h
    show appendGroup b buf _ group = buf
    exact appendGroup_noLeaf b group buf _ hg
  | .mk key (.any .nil), buf, p, h => by
    have hk : key = "" := by simpa [Attr.noLeaf] using h
    rw [hk]; rfl
  | .mk _ (.any (.obj _)), _, _, h => by simp [Attr.noLeaf] at h
  | .mk _ (.string _), _, _, h => by simp [Attr.noLeaf] at h
  | .mk _ (.int64 _), _, _, h => by simp [Attr.noLeaf] at h
  | .mk _ (.uint64 _), _, _, h => by simp [Attr.noLeaf] at h
  | .mk _ (.float64 _), _, _, h => by simp [Attr.noLeaf] at h
  | .mk _ (.bool _), _, _, h => by simp [Attr.noLeaf] at h
  | .mk _ (.duration _), _, _, h => by simp [Attr.noLeaf] at h
  | .mk _ (.time _), _, _, h => by simp [Attr.noLeaf] at h
  | .mk _ (.logValuer _), _, _, h => by simp [Attr.noLeaf] at h
theorem appendGroup_noLeaf (b : colorizedTextBuilder) : ∀ (group : List Attr) (buf p : String),
    noLeafList group = true → appendGroup b buf p group = buf
  | [], _, _, _ => by simp [appendGroup]
  | v :: rest, buf, p, h => by
    simp only [noLeafList, Bool.and_eq_true] at h
    simp only [appendGroup]
    rw [appendAttr_noLeaf b v buf p h.1]
    exact appendGroup_noLeaf b rest buf p h.2
end

end colorizedTextBuilder

theorem join_append : ∀ (l₁ l₂ : List String),
    String.join (l₁ ++ l₂) = String.join l₁ ++ String.join l₂
  | [], l₂ => by simp [String.join]
  | a :: l₁, l₂ => by
    rw [List.cons_append, join_cons, join_cons, join_append l₁ l₂, String.append_assoc]

theorem resolve_not_logValuer (v : Value) : v.Resolve.isLogValuer = false :=
  resolveLoop_not_logValuer maxLogValues v

theorem resolve_idem (v : Value) : v.Resolve.Resolve = v.Resolve :=
  resolveLoop_of_not_logValuer 99 v.Resolve (resolve_not_logValuer v)

namespace colorizedTextBuilder

/-- The human-readable `precomputeAttrs` is the concatenation of the encodings under the
given prefix. -/
theorem precomputeAttrs_text_eq (b : colorizedTextBuilder) (buf G : String)
    (attrs : List Attr) :
    precomputeAttrs b buf G attrs = buf ++ String.join (attrs.map (appendAttr b "" G)) := by
  simp only [precomputeAttrs]
  rw [prefix_copy, foldl_appendAttr]

theorem appendAttr_group_text (b : colorizedTextBuilder) (buf p key : String)
    (group : List Attr) :
    appendAttr b buf p (.mk key (.group group)) =
      group.foldl (fun buf attr => appendAttr b buf
        (if key ≠ "" then p ++ key ++ "." else p) attr) buf := by
  rw [← appendGroup_eq_foldl]
  rfl

/-- The result of `appendAttr` is its result on the resolved value. -/
theorem appendAttr_resolve (b : colorizedTextBuilder) (buf p key : String) (value : Value) :
    appendAttr b buf p (.mk key value) = appendAttr b buf p (.mk key value.Resolve) := by
  rw [appendAttr_eq, appendAttr_eq b buf p key value.Resolve, resolve_idem]

end colorizedTextBuilder

theorem buildLog_json_frame (buf : String) (record : Record) (P G : String) :
    jsonBuilder.buildLog buf record P G = buf ++ jsonBuilder.buildLog "" record P G := by
  rw [buildLog_json_eq, buildLog_json_eq ""]
  simp [-String.reduceAppend, String.append_assoc]

theorem buildLog_text_frame (b : colorizedTextBuilder) (buf : String) (record : Record)
    (P G : String) :
    colorizedTextBuilder.buildLog b buf record P G =
      buf ++ colorizedTextBuilder.buildLog b "" record P G := by
  rw [buildLog_text_eq, buildLog_text_eq b ""]
  simp [-String.reduceAppend, String.append_assoc]

theorem precomputeAttrs_json_frame (buf x : String) (attrs : List Attr) :
    jsonBuilder.precomputeAttrs buf x attrs = buf ++ jsonBuilder.precomputeAttrs "" x attrs := by
  rw [jsonBuilder.precomputeAttrs_eq, jsonBuilder.precomputeAttrs_eq ""]
  simp

theorem precomputeAttrs_text_frame (b : colorizedTextBuilder) (buf G : String)
    (attrs : List Attr) :
    colorizedTextBuilder.precomputeAttrs b buf G attrs =
      buf ++ colorizedTextBuilder.precomputeAttrs b "" G attrs := by
  rw [colorizedTextBuilder.precomputeAttrs_text_eq,
    colorizedTextBuilder.precomputeAttrs_text_eq b ""]
  simp

/-! ## The full-record layouts -/

/-- C1: `jsonBuilder.buildLog` appends, for every buffer, record, pre-bound fragment `P`
and group prefix `G`, the header with the time as `YYYY-MM-DD HH:MM:SS`, the level name
and the message, then the attribute section, then the closing brace and a newline. The
attribute section is empty when the record has no attribute and `P` is empty; otherwise
it is a comma, `G`, `P`, a comma exactly when `P` and the attribute list are both
non-empty, the `appendAttr` encodings of the attributes in order joined by commas, and a
closing brace exactly when `G` is non-empty. The worked example of the spec is the last
conjunct. -/
theorem json_buildLog_layout :
    (∀ (buf : String) (record : Record) (P G : String),
      jsonBuilder.buildLog buf record P G =
        buf ++ "\x7b\"time\":\"" ++ record.Time.AppendFormatDateTime "" ++ "\",\"level\":\""
          ++ levelBytes record.Level ++ "\",\"msg\":\"" ++ record.Message ++ "\""
          ++ (if record.attrs.length = 0 ∧ P = "" then ""
              else "," ++ G ++ P
                ++ (if P ≠ "" ∧ record.attrs.length ≠ 0 then "," else "")
                ++ String.intercalate "," (record.attrs.map (jsonBuilder.appendAttr "" ""))
                ++ (if G ≠ "" then "\x7d" else ""))
          ++ "\x7d\n") ∧
    jsonBuilder.buildLog ""
        ⟨exampleTime, LevelInfoValue, "msg",
          [.mk "amount" (.int64 500), .mk "retry" (.bool false)]⟩ "" "" =
      "\x7b\"time\":\"2024-01-01 00:00:00\",\"level\":\"INFO\",\"msg\":\"msg\",\"amount\":500,\"retry\":false\x7d\n" := by
  exact ⟨buildLog_json_eq, by decide⟩

/-- C2: `colorizedTextBuilder.buildLog` appends, for every buffer, record, pre-bound
fragment `P` and group prefix `G`: the time color, the time as `HH:MM:SS`, reset,
` | `, the level color, the first four characters of the level name, reset, ` | `, the
level color, the message, reset, `P` verbatim, the `appendAttr` encodings of the
attributes in order under key prefix `G`, and one newline. With the colors stripped,
the worked example of the spec reads `00:00:00 | INFO | msg amount=500 retry=false`. -/
theorem text_buildLog_layout :
    (∀ (b : colorizedTextBuilder) (buf : String) (record : Record) (P G : String),
      colorizedTextBuilder.buildLog b buf record P G =
        buf ++ b.colorOpts.TimeColor ++ record.Time.AppendFormatTimeOnly "" ++ reset ++ " | "
          ++ levelColor record.Level ++ (levelBytes record.Level).take 4 ++ reset ++ " | "
          ++ levelColor record.Level ++ record.Message ++ reset
          ++ P
          ++ String.join (record.attrs.map (colorizedTextBuilder.appendAttr b "" G))
          ++ "\n") ∧
    stripColors (colorizedTextBuilder.buildLog defaultTextBuilder ""
        ⟨exampleTime, LevelInfoValue, "msg",
          [.mk "amount" (.int64 500), .mk "retry" (.bool false)]⟩ "" "") =
      "00:00:00 | INFO | msg amount=500 retry=false\n" := by
  exact ⟨buildLog_text_eq, by decide⟩

/-! ## Pre-binding and the zero attribute in the machine-readable format -/

/-- C3: on the attribute list holding only the zero attribute `slog.Attr{}`, pre-binding
and dynamic passing do not produce the same bytes in the machine-readable format: the
pre-bound fragment is empty and the record closes right after the message, while the
record carrying the attribute emits the section comma before the closing brace. -/
theorem json_prebinding_zero_attr :
    jsonBuilder.precomputeAttrs "" "" [Attr.zero] = "" ∧
    jsonBuilder.buildLog "" ⟨exampleTime, LevelInfoValue, "msg", []⟩
        (jsonBuilder.precomputeAttrs "" "" [Attr.zero]) "" =
      "\x7b\"time\":\"2024-01-01 00:00:00\",\"level\":\"INFO\",\"msg\":\"msg\"\x7d\n" ∧
    jsonBuilder.buildLog "" ⟨exampleTime, LevelInfoValue, "msg", [Attr.zero]⟩ "" "" =
      "\x7b\"time\":\"2024-01-01 00:00:00\",\"level\":\"INFO\",\"msg\":\"msg\",\x7d\n" ∧
    jsonBuilder.buildLog "" ⟨exampleTime, LevelInfoValue, "msg", []⟩
        (jsonBuilder.precomputeAttrs "" "" [Attr.zero]) "" ≠
      jsonBuilder.buildLog "" ⟨exampleTime, LevelInfoValue, "msg", [Attr.zero]⟩ "" "" := by
  decide

/-- C4: the record loop of `jsonBuilder.buildLog` does not skip the zero attribute: a
record whose only attribute is `slog.Attr{}` is encoded with a comma after the message,
unlike the same record with no attribute, and a zero attribute in front of another one
leaves a second comma. -/
theorem json_zero_attr_separator :
    jsonBuilder.buildLog "" ⟨exampleTime, LevelInfoValue, "msg", [Attr.zero]⟩ "" "" =
      "\x7b\"time\":\"2024-01-01 00:00:00\",\"level\":\"INFO\",\"msg\":\"msg\",\x7d\n" ∧
    jsonBuilder.buildLog "" ⟨exampleTime, LevelInfoValue, "msg", []⟩ "" "" =
      "\x7b\"time\":\"2024-01-01 00:00:00\",\"level\":\"INFO\",\"msg\":\"msg\"\x7d\n" ∧
    jsonBuilder.buildLog ""
        ⟨exampleTime, LevelInfoValue, "msg", [Attr.zero, .mk "amount" (.int64 500)]⟩ "" "" =
      "\x7b\"time\":\"2024-01-01 00:00:00\",\"level\":\"INFO\",\"msg\":\"msg\",,\"amount\":500\x7d\n" ∧
    jsonBuilder.buildLog "" ⟨exampleTime, LevelInfoValue, "msg", [Attr.zero]⟩ "" "" ≠
      jsonBuilder.buildLog "" ⟨exampleTime, LevelInfoValue, "msg", []⟩ "" "" := by
  decide

/-! ## The zero attribute in the human-readable format -/

/-- C5: `colorizedTextBuilder.buildLog` produces the same bytes after every zero attribute
is removed from the attribute list of the record, for every record, pre-bound fragment
and group prefix; in particular a record whose only attribute is the zero attribute is
encoded like the same record with no attribute. -/
theorem text_zero_attr_skipped :
    (∀ (b : colorizedTextBuilder) (buf : String) (t : Time) (l : Level) (m : String)
        (A : List Attr) (P G : String),
      colorizedTextBuilder.buildLog b buf ⟨t, l, m, A.filter (fun a => !a.isZero)⟩ P G =
        colorizedTextBuilder.buildLog b buf ⟨t, l, m, A⟩ P G) ∧
    (∀ (b : colorizedTextBuilder) (buf : String) (t : Time) (l : Level) (m : String)
        (P G : String),
      colorizedTextBuilder.buildLog b buf ⟨t, l, m, [Attr.zero]⟩ P G =
        colorizedTextBuilder.buildLog b buf ⟨t, l, m, []⟩ P G) := by
  constructor
  · intro b buf t l m A P G
    rw [buildLog_text_eq, buildLog_text_eq]
    simp only [join_filter_zero]
  · intro b buf t l m P G
    rw [buildLog_text_eq, buildLog_text_eq]
    simp only [List.map_cons, List.map_nil]
    rw [join_cons, appendAttr_text_zero]
    simp

/-! ## Empty groups -/

/-- C6, counterexample: the group `slog.Group("g", slog.Attr{})`, whose only member is the
zero attribute, is not absent from the machine-readable output: `appendAttr` writes its
key and an empty object. -/
theorem json_empty_group_counterexample :
    [Attr.zero].all Attr.isZero = true ∧
    jsonBuilder.appendAttr "" "" (.mk "g" (.group [Attr.zero])) = "\"g\":\x7b\x7d" ∧
    jsonBuilder.appendAttr "" "" (.mk "g" (.group [Attr.zero])) ≠ "" := by
  decide

/-- C6, amended: for every buffer and every group attribute whose members are all zero
attributes, `jsonBuilder.appendAttr` returns the buffer unchanged when the member list is
empty (whatever the key) or the key is empty; for a non-empty key and a non-empty member
list it appends the key with an empty object, `"key":{}`, and no separator. -/
theorem json_empty_group (buf x key : String) (group : List Attr)
    (h : ∀ m ∈ group, m.isZero = true) :
    jsonBuilder.appendAttr buf x (.mk key (.group group)) =
      if group.length = 0 ∨ key = "" then buf else buf ++ "\"" ++ key ++ "\":\x7b\x7d" := by
  rw [jsonBuilder.appendAttr_group]
  by_cases hl : group.length = 0
  · simp [hl]
  · by_cases hk : key = ""
    · simp only [hl, hk, ↓reduceIte, ne_eq, not_true_eq_false, or_true]
      exact jsonBuilder.appendGroup_all_zero group buf true h
    · simp only [hl, hk, ↓reduceIte, ne_eq, not_false_eq_true, or_self]
      rw [jsonBuilder.appendGroup_all_zero group _ true h]
      simp [String.append_assoc]

/-- The three cases of the amended statement on the buffer `log`: an anonymous group of
zero attributes, an empty named group, and a named group of zero attributes. -/
theorem json_empty_group_witness :
    [Attr.zero, Attr.zero].all Attr.isZero = true ∧
    jsonBuilder.appendAttr "log" "" (.mk "" (.group [Attr.zero, Attr.zero])) = "log" ∧
    jsonBuilder.appendAttr "log" "" (.mk "g" (.group [])) = "log" ∧
    jsonBuilder.appendAttr "log" "" (.mk "g" (.group [Attr.zero, Attr.zero])) = "log\"g\":\x7b\x7d" :=
  ⟨by decide,
    (json_empty_group "log" "" "" [Attr.zero, Attr.zero] (by decide)).trans (by decide),
    (json_empty_group "log" "" "g" [] (by decide)).trans (by decide),
    (json_empty_group "log" "" "g" [Attr.zero, Attr.zero] (by decide)).trans (by decide)⟩

/-- C7: for every buffer, key prefix and group attribute that contains no leaf at any
depth (each member is the zero attribute or, recursively, a group containing no leaf),
`colorizedTextBuilder.appendAttr` returns the buffer unchanged. -/
theorem text_empty_group (b : colorizedTextBuilder) (buf p key : String) (group : List Attr)
    (h : noLeafList group = true) :
    colorizedTextBuilder.appendAttr b buf p (.mk key (.group group)) = buf :=
  colorizedTextBuilder.appendAttr_noLeaf b (.mk key (.group group)) buf p
    (by simpa [Attr.noLeaf] using h)

/-- A named group holding the zero attribute and a group that itself holds only the zero
attribute and an empty anonymous group leaves the buffer `log` unchanged. -/
theorem text_empty_group_witness :
    noLeafList [Attr.zero, .mk "h" (.group [Attr.zero, .mk "" (.group [])])] = true ∧
    colorizedTextBuilder.appendAttr defaultTextBuilder "log" "p." (.mk "g"
      (.group [Attr.zero, .mk "h" (.group [Attr.zero, .mk "" (.group [])])])) = "log" :=
  ⟨by decide, text_empty_group defaultTextBuilder "log" "p." "g" _ (by decide)⟩

/-! ## Group prefixes -/

/-- C8: in the human-readable format, `groupPrefix(groupPrefix(p, g1), g2)` is
`p ++ g1 ++ "." ++ g2 ++ "."`, and pre-binding one leaf attribute `k = v` (non-empty key,
value not a group once resolved) under the prefix `groupPrefix(groupPrefix("", g1), g2)`
emits one colorized pair whose key is `g1.g2.k`. -/
theorem text_group_prefix_composition (b : colorizedTextBuilder) (buf p g1 g2 k : String)
    (v : Value) (hk : k ≠ "") (hv : v.Resolve.isGroup = false) :
    colorizedTextBuilder.groupPrefix b (colorizedTextBuilder.groupPrefix b p g1) g2 =
      p ++ g1 ++ "." ++ g2 ++ "." ∧
    colorizedTextBuilder.precomputeAttrs b buf
        (colorizedTextBuilder.groupPrefix b (colorizedTextBuilder.groupPrefix b "" g1) g2)
        [.mk k v] =
      buf ++ " " ++ b.colorOpts.KeyColor ++ (g1 ++ "." ++ g2 ++ "." ++ k) ++ "=" ++ reset
        ++ b.colorOpts.ValueColor ++ colorizedTextBuilder.writeValue "" v.Resolve ++ reset := by
  constructor
  · simp [colorizedTextBuilder.groupPrefix, String.append_assoc]
  · have hz : (Attr.mk k v.Resolve).isZero = false := by
      cases hr : v.Resolve with
      | any a =>
        cases a with
        | nil => simpa [Attr.isZero] using hk
        | obj m => rfl
      | _ => rfl
    simp only [colorizedTextBuilder.precomputeAttrs, List.foldl_cons, List.foldl_nil]
    rw [prefix_copy, colorizedTextBuilder.appendAttr_leaf_text b buf _ k v hv hz,
      colorizedTextBuilder.appendLeaf_eq]
    simp [-String.reduceAppend, colorizedTextBuilder.groupPrefix, hk, String.append_assoc]

/-- Entering `g1`, then `g2`, then binding `k = v` gives the leaf key `g1.g2.k`. -/
theorem text_group_prefix_composition_witness :
    colorizedTextBuilder.groupPrefix defaultTextBuilder
        (colorizedTextBuilder.groupPrefix defaultTextBuilder "" "g1") "g2" = "g1.g2." ∧
    stripColors (colorizedTextBuilder.precomputeAttrs defaultTextBuilder ""
        (colorizedTextBuilder.groupPrefix defaultTextBuilder
          (colorizedTextBuilder.groupPrefix defaultTextBuilder "" "g1") "g2")
        [.mk "k" (.string "v")]) = " g1.g2.k=v" := by
  have h := text_group_prefix_composition defaultTextBuilder "" "" "g1" "g2" "k"
    (.string "v") (by decide) (by decide)
  exact ⟨h.1.trans (by decide), by rw [h.2]; decide⟩

/-- C9: with the prefix of two nested groups, `"g1":{"g2":{`, `jsonBuilder.buildLog` emits
one closing brace for the two opened wrappers: the record holds three opening and two
closing braces. -/
theorem json_nested_group_prefix_unclosed :
    jsonBuilder.groupPrefix (jsonBuilder.groupPrefix "" "g1") "g2" = "\"g1\":\x7b\"g2\":\x7b" ∧
    jsonBuilder.buildLog "" ⟨exampleTime, LevelInfoValue, "msg", [.mk "a" (.int64 1)]⟩ ""
        (jsonBuilder.groupPrefix (jsonBuilder.groupPrefix "" "g1") "g2") =
      "\x7b\"time\":\"2024-01-01 00:00:00\",\"level\":\"INFO\",\"msg\":\"msg\",\"g1\":\x7b\"g2\":\x7b\"a\":1\x7d\x7d\n" ∧
    countChar (Char.ofNat 123)
      (jsonBuilder.buildLog "" ⟨exampleTime, LevelInfoValue, "msg", [.mk "a" (.int64 1)]⟩ ""
        (jsonBuilder.groupPrefix (jsonBuilder.groupPrefix "" "g1") "g2")) = 3 ∧
    countChar (Char.ofNat 125)
      (jsonBuilder.buildLog "" ⟨exampleTime, LevelInfoValue, "msg", [.mk "a" (.int64 1)]⟩ ""
        (jsonBuilder.groupPrefix (jsonBuilder.groupPrefix "" "g1") "g2")) = 2 := by
  decide

/-- C10: for every buffer and every group attribute with key `k` and a non-empty member
list in which every member is a leaf (not a group, not the zero attribute) or a group of
this same shape, `jsonBuilder.appendAttr` appends `"k":{`, the members' own `appendAttr`
encodings in order joined by commas, and `}` when `k` is non-empty, and just the joined
encodings when `k` is empty. -/
theorem json_group_nested_object (buf key : String) (ms : List Attr) (hne : ms ≠ [])
    (hs : nestedShapeList ms = true) :
    jsonBuilder.appendAttr buf "" (.mk key (.group ms)) =
      if key ≠ "" then
        buf ++ "\"" ++ key ++ "\":\x7b"
          ++ String.intercalate "," (ms.map (jsonBuilder.appendAttr "" "")) ++ "\x7d"
      else buf ++ String.intercalate "," (ms.map (jsonBuilder.appendAttr "" "")) := by
  have hl : ms.length ≠ 0 := fun h => hne (List.length_eq_zero.mp h)
  rw [jsonBuilder.appendAttr_group]
  simp only [hl, ↓reduceIte]
  rw [jsonBuilder.appendGroup_no_zero ms _ true (nestedShapeList_not_zero ms hs),
    jsonBuilder.appendGroup_no_zero ms _ true (nestedShapeList_not_zero ms hs),
    jsonBuilder.buildLogAttrs_true, jsonBuilder.buildLogAttrs_true]

/-- The group `attr2` of the tests renders as two nested objects. -/
theorem json_group_nested_object_witness :
    nestedShapeList [.mk "key" (.string "val"),
      .mk "under_group" (.group [.mk "qwe" (.string "tte")])] = true ∧
    jsonBuilder.appendAttr "" "" (.mk "group" (.group [.mk "key" (.string "val"),
      .mk "under_group" (.group [.mk "qwe" (.string "tte")])])) =
      "\"group\":\x7b\"key\":\"val\",\"under_group\":\x7b\"qwe\":\"tte\"\x7d\x7d" :=
  ⟨by decide,
    (json_group_nested_object "" "group" [.mk "key" (.string "val"),
      .mk "under_group" (.group [.mk "qwe" (.string "tte")])] (by simp) (by decide)).trans
      (by decide)⟩

/-! ## Group flattening, sentinels and value encodings -/

/-- C11: in the human-readable format, `appendAttr(buf, p, Group(g, ms))` with a non-empty
key `g` equals `precomputeAttrs(buf, groupPrefix(p, g), ms)`, so every descendant leaf key
is prepended with `p ++ g ++ "."`; and `appendAttr(buf, p, Group("", ms))` equals
`precomputeAttrs(buf, p, ms)`: an anonymous group contributes no prefix segment. -/
theorem text_group_flattening (b : colorizedTextBuilder) (buf p g : String) (ms : List Attr)
    (hg : g ≠ "") :
    colorizedTextBuilder.appendAttr b buf p (.mk g (.group ms)) =
      colorizedTextBuilder.precomputeAttrs b buf (colorizedTextBuilder.groupPrefix b p g) ms ∧
    colorizedTextBuilder.appendAttr b buf p (.mk "" (.group ms)) =
      colorizedTextBuilder.precomputeAttrs b buf p ms := by
  constructor
  · rw [colorizedTextBuilder.appendAttr_group_text]
    simp only [colorizedTextBuilder.precomputeAttrs, colorizedTextBuilder.groupPrefix]
    rw [prefix_copy]
    simp [hg]
  · rw [colorizedTextBuilder.appendAttr_group_text]
    simp only [colorizedTextBuilder.precomputeAttrs]
    rw [prefix_copy]
    simp

/-- The group `attr2` of the tests under the empty prefix yields the leaf keys `group.key`
and `group.under_group.qwe`. -/
theorem text_group_flattening_witness :
    stripColors (colorizedTextBuilder.appendAttr defaultTextBuilder "" "" (.mk "group"
      (.group [.mk "key" (.string "val"),
        .mk "under_group" (.group [.mk "qwe" (.string "tte")])]))) =
      " group.key=val group.under_group.qwe=tte" ∧
    colorizedTextBuilder.appendAttr defaultTextBuilder "" "" (.mk "group"
      (.group [.mk "key" (.string "val"),
        .mk "under_group" (.group [.mk "qwe" (.string "tte")])])) =
      colorizedTextBuilder.precomputeAttrs defaultTextBuilder ""
        (colorizedTextBuilder.groupPrefix defaultTextBuilder "" "group")
        [.mk "key" (.string "val"), .mk "under_group" (.group [.mk "qwe" (.string "tte")])] :=
  ⟨by decide,
    (text_group_flattening defaultTextBuilder "" "" "group"
      [.mk "key" (.string "val"), .mk "under_group" (.group [.mk "qwe" (.string "tte")])]
      (by decide)).1⟩

/-- C12: for an attribute with an empty key that is not a group and not the zero
attribute, `jsonBuilder.appendAttr` appends `"!EMPTY_KEY":` and the encoding of the value,
and `colorizedTextBuilder.appendAttr`, which works on the resolved value, writes the key
as the current group prefix followed by `!EMPTY_KEY`; no empty key name is written. -/
theorem empty_key_sentinel (b : colorizedTextBuilder) (buf x p : String) (v : Value) :
    (v.isGroup = false → (Attr.mk "" v).isZero = false →
      jsonBuilder.appendAttr buf x (.mk "" v) =
        buf ++ "\"!EMPTY_KEY\":" ++ jsonBuilder.writeValue "" v) ∧
    (v.Resolve.isGroup = false → (Attr.mk "" v.Resolve).isZero = false →
      colorizedTextBuilder.appendAttr b buf p (.mk "" v) =
        buf ++ " " ++ b.colorOpts.KeyColor ++ (p ++ "!EMPTY_KEY") ++ "=" ++ reset
          ++ b.colorOpts.ValueColor ++ colorizedTextBuilder.writeValue "" v.Resolve
          ++ reset) := by
  constructor
  · intro hg hz
    rw [jsonBuilder.appendAttr_leaf buf x "" v hg, jsonBuilder.writeValue_frame]
    simp [hz, String.append_assoc]
  · intro hg hz
    rw [colorizedTextBuilder.appendAttr_leaf_text b buf p "" v hg hz,
      colorizedTextBuilder.appendLeaf_eq]
    simp [-String.reduceAppend, String.append_assoc]

/-- The attribute with an empty key and the string value `v`, in both formats. -/
theorem empty_key_sentinel_witness :
    jsonBuilder.appendAttr "" "" (.mk "" (.string "v")) = "\"!EMPTY_KEY\":\"v\"" ∧
    stripColors (colorizedTextBuilder.appendAttr defaultTextBuilder "" "g."
      (.mk "" (.string "v"))) = " g.!EMPTY_KEY=v" := by
  have h := empty_key_sentinel defaultTextBuilder "" "" "g." (.string "v")
  exact ⟨(h.1 (by decide) (by decide)).trans (by decide),
    by rw [h.2 (by decide) (by decide)]; decide⟩

/-- C13: for every string `s`, `jsonBuilder.writeValue` appends `"`, `s'`, `"` and
`colorizedTextBuilder.writeValue` appends `s'`, where `s'` is `!EMPTY_VALUE` when `s` is
empty and `s` itself otherwise, byte for byte; the machine-readable bytes are the
human-readable bytes in double quotes. A quote inside `s` is not escaped. -/
theorem string_value_encoding :
    (∀ (buf s : String),
      jsonBuilder.writeValue buf (.string s) =
        buf ++ "\"" ++ (if s = "" then "!EMPTY_VALUE" else s) ++ "\"" ∧
      colorizedTextBuilder.writeValue buf (.string s) =
        buf ++ (if s = "" then "!EMPTY_VALUE" else s) ∧
      jsonBuilder.writeValue "" (.string s) =
        "\"" ++ colorizedTextBuilder.writeValue "" (.string s) ++ "\"") ∧
    jsonBuilder.writeValue "" (.string "") = "\"!EMPTY_VALUE\"" ∧
    colorizedTextBuilder.writeValue "" (.string "") = "!EMPTY_VALUE" ∧
    jsonBuilder.writeValue "" (.string "a\"b\n") = "\"a\"b\n\"" := by
  refine ⟨?_, by decide, by decide, by decide⟩
  intro buf s
  by_cases hs : s = "" <;>
    simp [-String.reduceAppend, jsonBuilder.writeValue, colorizedTextBuilder.writeValue, hs,
      String.append_assoc]

/-- C14: for every value of kind `Any`, `writeValue` of both builders returns the buffer
extended by the bytes of `json.Marshal` when marshalling succeeds and by exactly
`!ERR_MARSHAL` when it fails. -/
theorem any_value_encoding :
    (∀ (buf : String) (a : AnyValue),
      jsonBuilder.writeValue buf (.any a) = buf ++ (jsonMarshal a).getD "!ERR_MARSHAL" ∧
      colorizedTextBuilder.writeValue buf (.any a) =
        buf ++ (jsonMarshal a).getD "!ERR_MARSHAL") ∧
    (∀ (buf : String),
      jsonBuilder.writeValue buf (.any (.obj Option.none)) = buf ++ "!ERR_MARSHAL" ∧
      colorizedTextBuilder.writeValue buf (.any (.obj Option.none)) = buf ++ "!ERR_MARSHAL") ∧
    (∀ (buf bytes : String),
      jsonBuilder.writeValue buf (.any (.obj (some bytes))) = buf ++ bytes ∧
      colorizedTextBuilder.writeValue buf (.any (.obj (some bytes))) = buf ++ bytes) := by
  refine ⟨?_, fun buf => ⟨rfl, rfl⟩, fun buf bytes => ⟨rfl, rfl⟩⟩
  intro buf a
  cases h : jsonMarshal a <;>
    simp [jsonBuilder.writeValue, colorizedTextBuilder.writeValue, h]

/-! ## Colorization, pre-binding and deferred values -/

/-- C15, counterexample: for the attribute `k = v` the builder of `NewTextHandler` writes
the `=` before the reset that ends the key color, not after it. -/
theorem text_pair_colorization_counterexample :
    colorizedTextBuilder.appendAttr defaultTextBuilder "" "" (.mk "k" (.string "v")) =
      " " ++ magenta ++ "k" ++ "=" ++ reset ++ noColor ++ "v" ++ reset ∧
    colorizedTextBuilder.appendAttr defaultTextBuilder "" "" (.mk "k" (.string "v")) ≠
      " " ++ (defaultTextBuilder.colorOpts.KeyColor ++ "" ++ "k" ++ reset) ++ "="
        ++ (defaultTextBuilder.colorOpts.ValueColor
          ++ colorizedTextBuilder.writeValue "" (.string "v") ++ reset) := by
  decide

/-- C15, amended: for every buffer, key prefix `p` and leaf attribute with non-empty key
`k` and value `v` (not a group once resolved), `colorizedTextBuilder.appendAttr` appends an
uncolored space, then the key color, `p`, `k` and the `=`, then the reset (the `=` is
written inside the key color), then the value color, the encoding of the resolved value
and the reset. -/
theorem text_pair_colorization (b : colorizedTextBuilder) (buf p k : String) (v : Value)
    (hk : k ≠ "") (hv : v.Resolve.isGroup = false) :
    colorizedTextBuilder.appendAttr b buf p (.mk k v) =
      buf ++ " " ++ (b.colorOpts.KeyColor ++ p ++ k ++ "=" ++ reset)
        ++ (b.colorOpts.ValueColor ++ colorizedTextBuilder.writeValue "" v.Resolve
          ++ reset) := by
  have hz : (Attr.mk k v.Resolve).isZero = false := by
    cases hr : v.Resolve with
    | any a =>
      cases a with
      | nil => simpa [Attr.isZero] using hk
      | obj m => rfl
    | _ => rfl
  rw [colorizedTextBuilder.appendAttr_leaf_text b buf p k v hv hz,
    colorizedTextBuilder.appendLeaf_eq]
  simp [-String.reduceAppend, hk, String.append_assoc]

/-- The pair `retry = false` under the prefix `g.` with the colors of `NewTextHandler`. -/
theorem text_pair_colorization_witness :
    colorizedTextBuilder.appendAttr defaultTextBuilder "log" "g." (.mk "retry" (.bool false)) =
      "log" ++ " " ++ (magenta ++ "g." ++ "retry" ++ "=" ++ reset)
        ++ (noColor ++ "false" ++ reset) :=
  text_pair_colorization defaultTextBuilder "log" "g." "retry" (.bool false)
    (by decide) (by decide)

/-- C16: pre-binding in the human-readable format is associative and left to right:
binding `A` and then `B` under the same prefix gives the bytes of binding `A ++ B`, and
these are the buffer, the bytes encoding `A`, then the bytes encoding `B`. -/
theorem text_prebinding_associative (b : colorizedTextBuilder) (buf G : String)
    (A B : List Attr) :
    colorizedTextBuilder.precomputeAttrs b
        (colorizedTextBuilder.precomputeAttrs b buf G A) G B =
      colorizedTextBuilder.precomputeAttrs b buf G (A ++ B) ∧
    colorizedTextBuilder.precomputeAttrs b buf G (A ++ B) =
      buf ++ colorizedTextBuilder.precomputeAttrs b "" G A
        ++ colorizedTextBuilder.precomputeAttrs b "" G B := by
  simp only [colorizedTextBuilder.precomputeAttrs_text_eq, List.map_append, join_append]
  simp [String.append_assoc]

/-- C17: for an attribute with non-empty key `k` whose value has the `LogValuer` kind,
`jsonBuilder.appendAttr` appends `"k":!UNHANDLED` whatever the value resolves to, while
`colorizedTextBuilder.appendAttr` gives the result it gives on the resolved value, which
is no longer a `LogValuer`. -/
theorem logValuer_encoding (b : colorizedTextBuilder) (buf x p k : String) (next : Value)
    (hk : k ≠ "") :
    jsonBuilder.appendAttr buf x (.mk k (.logValuer next)) =
      buf ++ "\"" ++ k ++ "\":" ++ "!UNHANDLED" ∧
    colorizedTextBuilder.appendAttr b buf p (.mk k (.logValuer next)) =
      colorizedTextBuilder.appendAttr b buf p (.mk k (Value.logValuer next).Resolve) ∧
    (Value.logValuer next).Resolve.isLogValuer = false := by
  refine ⟨?_, colorizedTextBuilder.appendAttr_resolve b buf p k _, resolve_not_logValuer _⟩
  rw [jsonBuilder.appendAttr_leaf buf x k (.logValuer next) rfl]
  simp [-String.reduceAppend, hk, Attr.isZero, jsonBuilder.writeValue, String.append_assoc]

/-- A deferred value resolving to the string `tte`: the machine-readable format writes the
sentinel, the human-readable format writes the resolved string. -/
theorem logValuer_encoding_witness :
    jsonBuilder.appendAttr "" "" (.mk "qwe" (.logValuer (.string "tte"))) =
      "\"qwe\":!UNHANDLED" ∧
    stripColors (colorizedTextBuilder.appendAttr defaultTextBuilder "" ""
      (.mk "qwe" (.logValuer (.string "tte")))) = " qwe=tte" := by
  have h := logValuer_encoding defaultTextBuilder "" "" "" "qwe" (.string "tte") (by decide)
  exact ⟨h.1.trans (by decide), by rw [h.2.1]; decide⟩

/-- C18: in the human-readable format, for every record time, level and message, every
already-bound fragment `P0`, group prefix `G` and attribute list `A`, the record carrying
`A` with fragment `P0` is encoded like the record carrying no attribute with fragment
`P0 ++ precomputeAttrs("", G, A)`. -/
theorem text_prebinding_equivalence (b : colorizedTextBuilder) (buf : String) (t : Time)
    (l : Level) (m : String) (P0 G : String) (A : List Attr) :
    colorizedTextBuilder.buildLog b buf ⟨t, l, m, A⟩ P0 G =
      colorizedTextBuilder.buildLog b buf ⟨t, l, m, []⟩
        (P0 ++ colorizedTextBuilder.precomputeAttrs b "" G A) G := by
  rw [buildLog_text_eq, buildLog_text_eq, colorizedTextBuilder.precomputeAttrs_text_eq]
  simp [-String.reduceAppend, String.join, String.append_assoc]

/-! ## Levels -/

/-- C19: a level other than -4, 0, 4 and 8 is labelled `INFO` by `ParseLevel`, gets the
Info label from `levelBytes` and the empty color from `levelColor`; the four named levels
are labelled `DEBUG`, `INFO`, `WARN`, `ERROR` and colored blue, green, yellow, red. -/
theorem unknown_level_is_info (l : Int)
    (h : l ≠ -4 ∧ l ≠ 0 ∧ l ≠ 4 ∧ l ≠ 8) :
    (ParseLevel l = "INFO" ∧ levelBytes l = LevelInfo ∧ levelColor l = noColor) ∧
    (ParseLevel (-4) = "DEBUG" ∧ ParseLevel 0 = "INFO" ∧ ParseLevel 4 = "WARN" ∧
      ParseLevel 8 = "ERROR") ∧
    (levelColor (-4) = blue ∧ levelColor 0 = green ∧ levelColor 4 = yellow ∧
      levelColor 8 = red) := by
  obtain ⟨h1, h2, h3, h4⟩ := h
  refine ⟨?_, by decide, by decide⟩
  simp [ParseLevel, levelBytes, levelColor, LevelDebugValue, LevelInfoValue, LevelWarnValue,
    LevelErrorValue, h1, h2, h3, h4]

/-- The level 12, above Error. -/
theorem unknown_level_is_info_witness :
    ParseLevel 12 = "INFO" ∧ levelBytes 12 = "INFO" ∧ levelColor 12 = "" :=
  (unknown_level_is_info 12 (by decide)).1

/-! ## Append-only operations -/

/-- C20: every encoder operation is append-only and independent of the prior content of
the buffer: for both builders, `buildLog`, `appendAttr`, `writeValue` and
`precomputeAttrs` on `buf` return `buf` followed by their result on the empty buffer. -/
theorem encoders_append_only :
    (∀ (buf : String) (record : Record) (P G : String),
      jsonBuilder.buildLog buf record P G = buf ++ jsonBuilder.buildLog "" record P G) ∧
    (∀ (buf x : String) (attr : Attr),
      jsonBuilder.appendAttr buf x attr = buf ++ jsonBuilder.appendAttr "" x attr) ∧
    (∀ (buf : String) (value : Value),
      jsonBuilder.writeValue buf value = buf ++ jsonBuilder.writeValue "" value) ∧
    (∀ (buf x : String) (attrs : List Attr),
      jsonBuilder.precomputeAttrs buf x attrs =
        buf ++ jsonBuilder.precomputeAttrs "" x attrs) ∧
    (∀ (b : colorizedTextBuilder) (buf : String) (record : Record) (P G : String),
      colorizedTextBuilder.buildLog b buf record P G =
        buf ++ colorizedTextBuilder.buildLog b "" record P G) ∧
    (∀ (b : colorizedTextBuilder) (buf p : String) (attr : Attr),
      colorizedTextBuilder.appendAttr b buf p attr =
        buf ++ colorizedTextBuilder.appendAttr b "" p attr) ∧
    (∀ (buf : String) (value : Value),
      colorizedTextBuilder.writeValue buf value =
        buf ++ colorizedTextBuilder.writeValue "" value) ∧
    (∀ (b : colorizedTextBuilder) (buf G : String) (attrs : List Attr),
      colorizedTextBuilder.precomputeAttrs b buf G attrs =
        buf ++ colorizedTextBuilder.precomputeAttrs b "" G attrs) :=
  ⟨buildLog_json_frame,
    fun buf x attr => jsonBuilder.appendAttr_frame attr buf x,
    jsonBuilder.writeValue_frame,
    precomputeAttrs_json_frame,
    buildLog_text_frame,
    fun b buf p attr => colorizedTextBuilder.appendAttr_text_frame b attr buf p,
    colorizedTextBuilder.writeValue_text_frame,
    precomputeAttrs_text_frame⟩
